import Mathlib

/-!
Verification development for delta's `src/features/hyperlinks.rs`.

Strings are modelled as `List Char`.  The Rust functions of the file are
translated into executable Lean definitions below; the commit-line regex
`(.* )([0-9a-f]{40})(.*)` and the `Regex::replace` call are modelled by an
explicit leftmost-first / greedy match function (`commitLineMatch`) together
with `regexReplace`, which replaces the whole match span by the string the
replacement closure returns.
-/

/-- Model of `str::replace(pat, rep)` (replace all non-overlapping occurrences,
left to right), written with explicit fuel so that it is structurally
recursive and evaluates in the kernel.  The fuel `s.length` is sufficient for
the non-empty needles (`"{commit}"`, `"{path}"`, `"{line}"`) used in the
source. -/
def replaceAllAux (pat rep : List Char) : Nat → List Char → List Char
  | _, [] => []
  | 0, s => s
  | Nat.succ fuel, c :: rest =>
    if pat.isPrefixOf (c :: rest) then
      rep ++ replaceAllAux pat rep fuel (rest.drop (pat.length - 1))
    else
      c :: replaceAllAux pat rep fuel rest

/-- `s.replace(pat, rep)` from Rust's standard library. -/
def replaceAll (pat rep s : List Char) : List Char :=
  replaceAllAux pat rep s.length s

/-- `[0-9a-f]`: one character class of `COMMIT_LINE_REGEX`. -/
def isCommitHexDigit (c : Char) : Bool :=
  ('0' ≤ c && c ≤ '9') || ('a' ≤ c && c ≤ 'f')

/-- `[0-9a-f]{40}`: exactly forty lowercase-hex characters. -/
def isHex40 (l : List Char) : Bool :=
  l.length == 40 && l.all isCommitHexDigit

/-- `.` in the regex: any character other than a newline. -/
def notNL (c : Char) : Bool :=
  !(c == '\n')

/-- Every character of `l` may be consumed by `.`. -/
def noNewline (l : List Char) : Bool :=
  l.all notNL

/-- Position `j` can serve as the position of the literal space of
`(.* )([0-9a-f]{40})(.*)`: the character at `j` is a space and the forty
characters after it are lowercase hex. -/
def candidateAt (s : List Char) (j : Nat) : Bool :=
  (s[j]? == some ' ') && isHex40 ((s.drop (j + 1)).take 40)

/-- Starting the match at `i`, the space of the pattern can sit at `j`:
`i ≤ j`, `j` is a candidate, and `.*` can consume `s[i..j)` (no newline). -/
def matchFromPred (s : List Char) (i j : Nat) : Bool :=
  decide (i ≤ j) && candidateAt s j && noNewline ((s.drop i).take (j - i))

/-- The pattern matches somewhere when started at position `i`. -/
def matchFrom (s : List Char) (i : Nat) : Bool :=
  (List.range s.length).any (matchFromPred s i)

/-- The leftmost-first match of `COMMIT_LINE_REGEX = (.* )([0-9a-f]{40})(.*)`
on `s`, as performed by Rust's regex engine: the match start `i` is minimal;
at that start the greedy leading `.*` makes the space position `j` maximal;
the greedy trailing `.*` extends the match end `e` to the end of the line
(or to the first newline).  Returns `some (i, j, e)`; capture group 1 is
`s[i..j+1)`, group 2 is `s[j+1..j+41)`, group 3 is `s[j+41..e)`. -/
def commitLineMatch (s : List Char) : Option (Nat × Nat × Nat) :=
  match (List.range s.length).find? (matchFrom s) with
  | none => none
  | some i =>
    match ((List.range s.length).filter (matchFromPred s i)).getLast? with
    | none => none
    | some j => some (i, j, j + 41 + ((s.drop (j + 41)).takeWhile notNL).length)

/-- `COMMIT_LINE_REGEX.replace(s, f)`: replace the whole span of the
leftmost-first match by the string returned by the replacement closure `f`,
which receives the three capture groups. -/
def regexReplace (s : List Char) (f : List Char → List Char → List Char → List Char) :
    List Char :=
  match commitLineMatch s with
  | none => s
  | some (i, j, e) =>
    s.take i ++
      f ((s.drop i).take (j + 1 - i)) ((s.drop (j + 1)).take 40)
        ((s.drop (j + 41)).take (e - (j + 41))) ++
      s.drop e

/-- `GitRemoteRepo` from `src/git_config` (not part of the fragment under
study).  Modelled from the spec: a tagged value with a GitHub variant
carrying an `owner/name` string; "other variants may exist for other hosting
providers but are outside this core's concern beyond 'not GitHub -> no
fallback URL'", represented here by `OtherRepo`. -/
inductive GitRemoteRepo where
  | GitHubRepo (repo : List Char)
  | OtherRepo
deriving DecidableEq

/-- `GitConfigEntry` from `src/git_config`.  Modelled from the spec: a tagged
value, one variant holding a filesystem path (the working directory), another
holding a resolved remote-repository identifier. -/
inductive GitConfigEntry where
  | Path (p : List Char)
  | GitRemote (r : GitRemoteRepo)
deriving DecidableEq

/-- The remote object of the git collaborator: exposes `url()`, an optional
string. -/
structure Remote where
  url : Option (List Char)

/-- The repository handle of the git collaborator: `find_remote(name)`
returns a remote or a lookup error (error details are discarded by the
caller via `.ok()`). -/
structure Repo where
  find_remote : List Char → Except Unit Remote

/-- `GitConfig` from `src/git_config`: carries an optional repository
handle. -/
structure GitConfig where
  repo : Option Repo

/-- The slice of delta's `Config` read by `hyperlinks.rs`. -/
structure Config where
  hyperlinks_commit_link_format : Option (List Char)
  git_config : Option GitConfig
  git_config_entries : List (List Char × GitConfigEntry)
  hyperlinks_file_link_format : List Char

/-- `format_osc8_hyperlink` (hyperlinks.rs:80-88):
`format!("{osc}8;;{url}{st}{text}{osc}8;;{st}")` with `osc = "\x1b]"` and
`st = "\x1b\\"`. -/
def format_osc8_hyperlink (url text : List Char) : List Char :=
  "\x1b]".toList ++ "8;;".toList ++ url ++ "\x1b\\".toList ++
    text ++ "\x1b]".toList ++ "8;;".toList ++ "\x1b\\".toList

/-- `format_github_commit_url` (hyperlinks.rs:110-112). -/
def format_github_commit_url (commit github_repo : List Char) : List Char :=
  "https://github.com/".toList ++ github_repo ++ "/commit/".toList ++ commit

/-- `format_commit_line_captures_with_osc8_commit_hyperlink`
(hyperlinks.rs:94-108); the three capture-group strings are passed explicitly
in place of the `Captures` value. -/
def format_commit_line_captures_with_osc8_commit_hyperlink
    (g1 commit g3 github_repo : List Char) : List Char :=
  g1 ++ "\x1b]".toList ++ "8;;".toList ++ format_github_commit_url commit github_repo ++
    "\x1b\\".toList ++ commit ++ "\x1b]".toList ++ "8;;".toList ++ "\x1b\\".toList ++ g3

/-- `get_remote_url` (hyperlinks.rs:42-54).  `GitRemoteRepo::from_str` lives
in `src/git_config` and is passed here as the explicit collaborator
`from_str` (the spec's external remote-URL parser). -/
def get_remote_url (from_str : List Char → Except Unit GitRemoteRepo)
    (git_config : GitConfig) : Option GitConfigEntry :=
  match git_config.repo with
  | none => none
  | some repo =>
    match (repo.find_remote ("origin".toList)).toOption with
    | none => none
    | some remote =>
      remote.url.bind fun url =>
        ((from_str url).toOption).map GitConfigEntry.GitRemote

/-- `format_commit_line_with_osc8_commit_hyperlink` (hyperlinks.rs:22-40).
Branch A replaces the match by only the hyperlink the closure returns;
Branch B replaces it by prefix ++ hyperlink ++ suffix via
`format_commit_line_captures_with_osc8_commit_hyperlink`. -/
def format_commit_line_with_osc8_commit_hyperlink
    (from_str : List Char → Except Unit GitRemoteRepo)
    (line : List Char) (config : Config) : List Char :=
  match config.hyperlinks_commit_link_format with
  | some commit_link_format =>
    regexReplace line fun _ commit _ =>
      format_osc8_hyperlink (replaceAll ("{commit}".toList) commit commit_link_format)
        commit
  | none =>
    match Option.bind config.git_config (get_remote_url from_str) with
    | some (GitConfigEntry.GitRemote (GitRemoteRepo.GitHubRepo repo)) =>
      regexReplace line fun g1 commit g3 =>
        format_commit_line_captures_with_osc8_commit_hyperlink g1 commit g3 repo
    | _ => line

/-- `Path::join` of the standard library, for the string form of paths used
here: an absolute right-hand side replaces the base, otherwise the two are
joined with a single `/` separator. -/
def pathJoin (base rel : List Char) : List Char :=
  if rel.head? = some '/' then rel
  else if base.getLast? = some '/' then base ++ rel
  else base ++ '/' :: rel

/-- `format_osc8_file_hyperlink` (hyperlinks.rs:57-78). -/
def format_osc8_file_hyperlink (relative_path : List Char) (line_number : Option Nat)
    (text : List Char) (config : Config) : List Char :=
  match List.lookup ("delta.__workdir__".toList) config.git_config_entries with
  | some (GitConfigEntry.Path workdir) =>
    let absolute_path := pathJoin workdir relative_path
    let url := replaceAll ("{path}".toList) absolute_path config.hyperlinks_file_link_format
    let url :=
      match line_number with
      | some n => replaceAll ("{line}".toList) ((Nat.repr n).toList) url
      | none => replaceAll ("{line}".toList) [] url
    format_osc8_hyperlink url text
  | _ => relative_path

/-- The 40-hex commit hash appearing in the repository's own test. -/
def testHash : List Char := "342016d0a69d8361dc17396d9a441704416eb7bb".toList

/-- A 40-hex token made of the letter `a`. -/
def aHash : List Char := List.replicate 40 'a'

/-- A 40-hex token made of the letter `b`. -/
def bHash : List Char := List.replicate 40 'b'

/-- A configuration selecting Branch A with template `http://x/{commit}`. -/
def cfgTemplateX : Config :=
  { hyperlinks_commit_link_format := some ("http://x/{commit}".toList),
    git_config := none, git_config_entries := [], hyperlinks_file_link_format := [] }

/-- A configuration with no template, no git metadata, no entries. -/
def cfgEmpty : Config :=
  { hyperlinks_commit_link_format := none,
    git_config := none, git_config_entries := [], hyperlinks_file_link_format := [] }

/-- External remote-URL parser collaborator that recognizes nothing. -/
def noParse : List Char → Except Unit GitRemoteRepo := fun _ => Except.error ()

/-- External remote-URL parser collaborator that recognizes every URL as the
GitHub repository `owner/repo`. -/
def parseOwnerRepo : List Char → Except Unit GitRemoteRepo :=
  fun _ => Except.ok (GitRemoteRepo.GitHubRepo ("owner/repo".toList))

/-- A git collaborator whose `origin` remote carries a URL. -/
def gcWithOrigin : GitConfig :=
  { repo := some
      { find_remote := fun _ =>
          Except.ok { url := some ("git@github.com:owner/repo.git".toList) } } }

/-- Branch-B configuration: no template, resolvable GitHub remote. -/
def cfgGitHub : Config :=
  { hyperlinks_commit_link_format := none, git_config := some gcWithOrigin,
    git_config_entries := [], hyperlinks_file_link_format := [] }

/-- Configuration for the file-hyperlink claims: working directory `/repo`
and file-URL template `file://{path}#{line}`. -/
def cfgWorkdir : Config :=
  { hyperlinks_commit_link_format := none, git_config := none,
    git_config_entries := [("delta.__workdir__".toList, GitConfigEntry.Path ("/repo".toList))],
    hyperlinks_file_link_format := "file://{path}#{line}".toList }

lemma candidateAt_of_ge_length (s : List Char) (j : Nat) (h : s.length ≤ j) :
    candidateAt s j = false := by
  simp [candidateAt, List.getElem?_eq_none h]

lemma lt_length_of_candidateAt (s : List Char) (j : Nat) (h : candidateAt s j = true) :
    j < s.length := by
  by_contra hc
  rw [candidateAt_of_ge_length s j (Nat.le_of_not_lt hc)] at h
  exact Bool.false_ne_true h

lemma le_length_of_candidateAt (s : List Char) (j : Nat) (h : candidateAt s j = true) :
    j + 41 ≤ s.length := by
  rw [candidateAt, Bool.and_eq_true] at h
  have h2 := h.2
  rw [isHex40, Bool.and_eq_true] at h2
  have h3 : ((s.drop (j + 1)).take 40).length = 40 := by
    have := h2.1
    simpa using this
  rw [List.length_take, List.length_drop] at h3
  omega

lemma noNewline_subset (s t : List Char) (hsub : t ⊆ s) (h : noNewline s = true) :
    noNewline t = true := by
  rw [noNewline, List.all_eq_true] at h ⊢
  intro c hc
  exact h c (hsub hc)

lemma takeWhile_all_eq_self (p : Char → Bool) (l : List Char) :
    l.all p = true → l.takeWhile p = l := by
  induction l with
  | nil => intro _; rfl
  | cons c rest ih =>
    intro h
    rw [List.all_cons, Bool.and_eq_true] at h
    rw [List.takeWhile_cons_of_pos h.1, ih h.2]

lemma getLast?_eq_some_mem {l : List Nat} {a : Nat} (h : l.getLast? = some a) : a ∈ l := by
  induction l with
  | nil => exact absurd h (by simp)
  | cons c rest ih =>
    cases rest with
    | nil =>
      simp only [List.getLast?_singleton, Option.some.injEq] at h
      simp [h]
    | cons d rest2 =>
      rw [List.getLast?_cons_cons] at h
      exact List.mem_cons_of_mem c (ih h)

lemma filter_range_getLast?_eq (P : Nat → Bool) (j : Nat)
    (hPj : P j = true) (hmax : ∀ k, j < k → P k = false) :
    ∀ n, j < n → ((List.range n).filter P).getLast? = some j := by
  intro n
  induction n with
  | zero => intro h; exact absurd h (Nat.not_lt_zero j)
  | succ m ih =>
    intro hjn
    rw [List.range_succ, List.filter_append]
    rcases Nat.lt_or_ge j m with hlt | hge
    · have hPm : P m = false := hmax m hlt
      simp only [List.filter_cons, hPm, Bool.false_eq_true, if_false, List.filter_nil,
        List.append_nil]
      exact ih hlt
    · have hjm : j = m := by omega
      subst hjm
      simp only [List.filter_cons, hPj, if_true, List.filter_nil]
      exact List.getLast?_concat _

lemma drop_append_cons_right (p X : List Char) (c : Char) (n : Nat) :
    (p ++ c :: X).drop (p.length + 1 + n) = X.drop n := by
  rw [List.drop_append_eq_append_drop]
  have h1 : p.drop (p.length + 1 + n) = [] := List.drop_eq_nil_of_le (by omega)
  have h2 : p.length + 1 + n - p.length = n + 1 := by omega
  rw [h1, h2, List.nil_append, List.drop_succ_cons]

lemma take_append_cons_right (p X : List Char) (c : Char) :
    (p ++ c :: X).take (p.length + 1) = p ++ [c] := by
  rw [List.take_append_eq_append_take]
  have h1 : p.take (p.length + 1) = p := List.take_of_length_le (by omega)
  have h2 : p.length + 1 - p.length = 1 := by omega
  rw [h1, h2]
  simp

lemma commitLineMatch_eq_of_candidate (s : List Char) (j : Nat)
    (hnl : noNewline s = true) (hj : candidateAt s j = true)
    (hmax : ∀ k, j < k → candidateAt s k = false) :
    commitLineMatch s = some (0, j, s.length) := by
  have hjlen : j < s.length := lt_length_of_candidateAt s j hj
  have hlen41 : j + 41 ≤ s.length := le_length_of_candidateAt s j hj
  have hpred : matchFromPred s 0 j = true := by
    rw [matchFromPred, hj]
    have hnn : noNewline ((s.drop 0).take (j - 0)) = true :=
      noNewline_subset s _
        (fun c hc => List.drop_subset 0 s (List.take_subset (j - 0) _ hc)) hnl
    rw [hnn]
    simp
  have hmf : matchFrom s 0 = true := by
    rw [matchFrom, List.any_eq_true]
    exact ⟨j, List.mem_range.mpr hjlen, hpred⟩
  have hfind : (List.range s.length).find? (matchFrom s) = some 0 := by
    obtain ⟨m, hm⟩ : ∃ m, s.length = m + 1 := ⟨s.length - 1, by omega⟩
    rw [hm, List.range_succ_eq_map]
    exact List.find?_cons_of_pos _ hmf
  have hlast : ((List.range s.length).filter (matchFromPred s 0)).getLast? = some j := by
    apply filter_range_getLast?_eq (matchFromPred s 0) j hpred _ s.length hjlen
    intro k hk
    rw [matchFromPred, hmax k hk]
    simp
  have htw : (s.drop (j + 41)).takeWhile notNL = s.drop (j + 41) :=
    takeWhile_all_eq_self notNL _
      (noNewline_subset s _ (List.drop_subset (j + 41) s) hnl)
  have harith : j + 41 + ((s.drop (j + 41)).takeWhile notNL).length = s.length := by
    rw [htw, List.length_drop]
    omega
  simp only [commitLineMatch, hfind, hlast, harith]

lemma commitLineMatch_eq_none (s : List Char) (h : ∀ j, candidateAt s j = false) :
    commitLineMatch s = none := by
  have hfind : (List.range s.length).find? (matchFrom s) = none := by
    rw [List.find?_eq_none]
    intro i _
    simp only [matchFrom, List.any_eq_true, not_exists]
    intro j
    rw [matchFromPred, h j]
    simp
  rw [commitLineMatch, hfind]

lemma regexReplace_of_full_match (s : List Char) (j : Nat)
    (f : List Char → List Char → List Char → List Char)
    (hm : commitLineMatch s = some (0, j, s.length)) :
    regexReplace s f = f (s.take (j + 1)) ((s.drop (j + 1)).take 40) (s.drop (j + 41)) := by
  rw [regexReplace, hm]
  have h3 : (s.drop (j + 41)).take (s.length - (j + 41)) = s.drop (j + 41) := by
    rw [← List.length_drop]
    exact List.take_length _
  simp [h3, List.drop_length]

lemma commitLineMatch_inv (s : List Char) (i j e : Nat)
    (h : commitLineMatch s = some (i, j, e)) : i ≤ j ∧ j + 41 ≤ e := by
  rw [commitLineMatch] at h
  rcases hf : (List.range s.length).find? (matchFrom s) with _ | i'
  · simp only [hf] at h
    exact Option.noConfusion h
  · simp only [hf] at h
    rcases hl : ((List.range s.length).filter (matchFromPred s i')).getLast? with _ | j'
    · simp only [hl] at h
      exact Option.noConfusion h
    · simp only [hl] at h
      have hmem : j' ∈ (List.range s.length).filter (matchFromPred s i') :=
        getLast?_eq_some_mem hl
      have hpred : matchFromPred s i' j' = true := (List.mem_filter.mp hmem).2
      have hij : i' ≤ j' := by
        rw [matchFromPred, Bool.and_eq_true, Bool.and_eq_true] at hpred
        exact of_decide_eq_true hpred.1.1
      simp only [Option.some.injEq, Prod.mk.injEq] at h
      obtain ⟨h1, h2, h3⟩ := h
      subst h1
      subst h2
      constructor
      · exact hij
      · omega

lemma format_commit_line_unchanged_of_no_candidate
    (from_str : List Char → Except Unit GitRemoteRepo) (cfg : Config) (line : List Char)
    (h : ∀ j, candidateAt line j = false) :
    format_commit_line_with_osc8_commit_hyperlink from_str line cfg = line := by
  have hm : commitLineMatch line = none := commitLineMatch_eq_none line h
  rw [format_commit_line_with_osc8_commit_hyperlink]
  split
  · rw [regexReplace, hm]
  · split
    · rw [regexReplace, hm]
    · rfl

lemma format_commit_line_branchB
    (from_str : List Char → Except Unit GitRemoteRepo) (cfg : Config)
    (repo p t : List Char)
    (hT : cfg.hyperlinks_commit_link_format = none)
    (hR : Option.bind cfg.git_config (get_remote_url from_str)
        = some (GitConfigEntry.GitRemote (GitRemoteRepo.GitHubRepo repo)))
    (hhex : isHex40 (t.take 40) = true)
    (hnl : noNewline (p ++ ' ' :: t) = true)
    (hmax : ∀ k, p.length < k → candidateAt (p ++ ' ' :: t) k = false) :
    format_commit_line_with_osc8_commit_hyperlink from_str (p ++ ' ' :: t) cfg
      = p ++ ' ' :: (format_osc8_hyperlink
          (format_github_commit_url (t.take 40) repo) (t.take 40) ++ t.drop 40) := by
  have hdrop1 : (p ++ ' ' :: t).drop (p.length + 1) = t := by
    have h := drop_append_cons_right p t ' ' 0
    rw [Nat.add_zero] at h
    rw [h, List.drop_zero]
  have hj : candidateAt (p ++ ' ' :: t) p.length = true := by
    rw [candidateAt]
    have hg : (p ++ ' ' :: t)[p.length]? = some ' ' := by
      rw [List.getElem?_append_right (Nat.le_refl _)]
      simp
    rw [hg, hdrop1, hhex]
    simp
  have hm : commitLineMatch (p ++ ' ' :: t) = some (0, p.length, (p ++ ' ' :: t).length) :=
    commitLineMatch_eq_of_candidate _ p.length hnl hj hmax
  have hg1 : (p ++ ' ' :: t).take (p.length + 1) = p ++ [' '] :=
    take_append_cons_right p t ' '
  have hg3 : (p ++ ' ' :: t).drop (p.length + 41) = t.drop 40 := by
    have := drop_append_cons_right p t ' ' 40
    have harith : p.length + 1 + 40 = p.length + 41 := by omega
    rw [harith] at this
    exact this
  rw [format_commit_line_with_osc8_commit_hyperlink]
  simp only [hT]
  simp only [hR]
  rw [regexReplace_of_full_match _ p.length _ hm, hg1, hdrop1, hg3]
  simp [format_commit_line_captures_with_osc8_commit_hyperlink, format_osc8_hyperlink,
    List.append_assoc]

/-- C4: for every `url` and every `text`, the OSC8 encoder produces exactly
the byte sequence `ESC ] 8 ; ;` ++ url ++ `ESC \` ++ text ++ `ESC ] 8 ; ;`
++ `ESC \`, with no validation or escaping of either argument. -/
theorem c4_osc8_exact_bytes (url text : List Char) :
    format_osc8_hyperlink url text
      = "\x1b]8;;".toList ++ url ++ "\x1b\\".toList ++ text
          ++ "\x1b]8;;".toList ++ "\x1b\\".toList := by
  have h : "\x1b]8;;".toList = "\x1b]".toList ++ "8;;".toList := rfl
  simp only [format_osc8_hyperlink, h, List.append_assoc]

/-- C1: the claim states that with commit-URL template `http://x/{commit}`
and line `commit <H>` Branch A returns
`"commit " ++ OSC8("http://x/<H>", <H>)`.  The code instead replaces the
whole regex match — which spans the entire line — by the hyperlink alone, so
the `"commit "` prefix (and any suffix) is deleted from the output.  This
theorem evaluates the code at the failing input: the output is exactly the
bare hyperlink and differs from the output the claim (and the spec's Branch A
contract, which Branch B's code honours) requires. -/
theorem c1_branchA_drops_line_context :
    format_commit_line_with_osc8_commit_hyperlink noParse
        ("commit ".toList ++ testHash) cfgTemplateX
      = format_osc8_hyperlink ("http://x/".toList ++ testHash) testHash
    ∧ format_commit_line_with_osc8_commit_hyperlink noParse
        ("commit ".toList ++ testHash) cfgTemplateX
      ≠ "commit ".toList ++ format_osc8_hyperlink ("http://x/".toList ++ testHash) testHash :=
  ⟨by decide, by decide⟩

/-- C6: a line with no 40-character lowercase-hex substring is returned
unchanged by `format_commit_line_with_osc8_commit_hyperlink`, for every
configuration and every remote-URL parser. -/
theorem c6_no_hex_noop (from_str : List Char → Except Unit GitRemoteRepo)
    (cfg : Config) (line : List Char)
    (h : ∀ i, i < line.length → isHex40 ((line.drop i).take 40) = false) :
    format_commit_line_with_osc8_commit_hyperlink from_str line cfg = line := by
  apply format_commit_line_unchanged_of_no_candidate
  intro j
  rw [candidateAt]
  rcases Nat.lt_or_ge (j + 1) line.length with hlt | hge
  · rw [h (j + 1) hlt]
    simp
  · have hnil : (line.drop (j + 1)).take 40 = [] := by
      rw [List.drop_eq_nil_of_le hge]
      rfl
    rw [hnil]
    simp [isHex40]

/-- Witness for C6: the template is configured but `"hello, world"` has no
40-hex substring, so the line is unchanged. -/
theorem c6_witness :
    (∀ i, i < ("hello, world".toList).length →
        isHex40 ((("hello, world".toList).drop i).take 40) = false)
    ∧ format_commit_line_with_osc8_commit_hyperlink noParse
        ("hello, world".toList) cfgTemplateX = "hello, world".toList :=
  ⟨by decide, c6_no_hex_noop noParse cfgTemplateX ("hello, world".toList) (by decide)⟩

/-- C9: if no 40-hex run in the line is immediately preceded by a space
character (`candidateAt` is false everywhere), the line is returned
unchanged even when a template is configured or a remote resolves, because
the pattern `(.* )` requires a literal space before the hash group. -/
theorem c9_no_space_preceded_hash (from_str : List Char → Except Unit GitRemoteRepo)
    (cfg : Config) (line : List Char)
    (h : ∀ j, j < line.length → candidateAt line j = false) :
    format_commit_line_with_osc8_commit_hyperlink from_str line cfg = line := by
  apply format_commit_line_unchanged_of_no_candidate
  intro j
  rcases Nat.lt_or_ge j line.length with hlt | hge
  · exact h j hlt
  · exact candidateAt_of_ge_length line j hge

/-- Witness for C9: a line consisting solely of a 40-hex hash is unchanged
although a commit-URL template is configured. -/
theorem c9_witness :
    (∀ j, j < aHash.length → candidateAt aHash j = false)
    ∧ format_commit_line_with_osc8_commit_hyperlink noParse aHash cfgTemplateX = aHash :=
  ⟨by decide, c9_no_space_preceded_hash noParse cfgTemplateX aHash (by decide)⟩

/-- C7: when the configuration's entry mapping has no entry under the
reserved key `delta.__workdir__`, or the entry is not the path-valued
variant, `format_osc8_file_hyperlink` returns `relative_path` verbatim for
every `line_number` and `text`. -/
theorem c7_no_workdir_verbatim (cfg : Config) (relative_path text : List Char)
    (line_number : Option Nat)
    (h : List.lookup ("delta.__workdir__".toList) cfg.git_config_entries = none
      ∨ ∃ r, List.lookup ("delta.__workdir__".toList) cfg.git_config_entries
          = some (GitConfigEntry.GitRemote r)) :
    format_osc8_file_hyperlink relative_path line_number text cfg = relative_path := by
  rw [format_osc8_file_hyperlink]
  rcases h with h | ⟨r, h⟩ <;> rw [h]

/-- Witness for C7: an empty entry mapping returns the path verbatim. -/
theorem c7_witness :
    List.lookup ("delta.__workdir__".toList) cfgEmpty.git_config_entries = none
    ∧ format_osc8_file_hyperlink ("a.txt".toList) (some 7) ("shown".toList) cfgEmpty
        = "a.txt".toList :=
  ⟨rfl, c7_no_workdir_verbatim cfgEmpty ("a.txt".toList) ("shown".toList) (some 7)
    (Or.inl rfl)⟩

lemma captures_eq (g1 c g3 r : List Char) :
    format_commit_line_captures_with_osc8_commit_hyperlink g1 c g3 r
      = g1 ++ format_osc8_hyperlink (format_github_commit_url c r) c ++ g3 := by
  simp [format_commit_line_captures_with_osc8_commit_hyperlink, format_osc8_hyperlink,
    List.append_assoc]

lemma assemble (A B C D M A2 D2 : List Char) (h1 : A ++ B = A2) (h3 : C ++ D = D2) :
    A ++ (B ++ M ++ C) ++ D = A2 ++ M ++ D2 := by
  subst h1
  subst h3
  simp [List.append_assoc]

/-- C3: without a template but with a resolved GitHub remote `repo`
(Branch B), a line matched by the commit pattern is reassembled as
prefix ++ OSC8-hyperlink(url, hash) ++ suffix, where the url is
`https://github.com/<repo>/commit/<hash>` for the matched hash
`(line.drop (j+1)).take 40`.  Here `line.take (j+1)` is the prefix up to and
including the matched space (capture group 1 plus any unmatched head, which
is empty for ordinary single-line input) and `line.drop (j+41)` the rest. -/
theorem c3_github_fallback
    (from_str : List Char → Except Unit GitRemoteRepo) (cfg : Config)
    (line repo : List Char) (i j e : Nat)
    (hT : cfg.hyperlinks_commit_link_format = none)
    (hR : Option.bind cfg.git_config (get_remote_url from_str)
        = some (GitConfigEntry.GitRemote (GitRemoteRepo.GitHubRepo repo)))
    (hm : commitLineMatch line = some (i, j, e)) :
    format_commit_line_with_osc8_commit_hyperlink from_str line cfg
      = line.take (j + 1)
        ++ format_osc8_hyperlink
            (format_github_commit_url ((line.drop (j + 1)).take 40) repo)
            ((line.drop (j + 1)).take 40)
        ++ line.drop (j + 41)
    ∧ format_github_commit_url ((line.drop (j + 1)).take 40) repo
      = "https://github.com/".toList ++ repo ++ "/commit/".toList
          ++ (line.drop (j + 1)).take 40 := by
  constructor
  · obtain ⟨hij, hje⟩ := commitLineMatch_inv line i j e hm
    have h1 : line.take i ++ (line.drop i).take (j + 1 - i) = line.take (j + 1) := by
      rw [← List.take_add]
      congr 1
      omega
    have h3 : (line.drop (j + 41)).take (e - (j + 41)) ++ line.drop e
        = line.drop (j + 41) := by
      have hd : line.drop e = (line.drop (j + 41)).drop (e - (j + 41)) := by
        rw [List.drop_drop]
        congr 1
        omega
      rw [hd, List.take_append_drop]
    rw [format_commit_line_with_osc8_commit_hyperlink]
    simp only [hT]
    simp only [hR]
    simp only [regexReplace, hm]
    rw [captures_eq]
    exact assemble _ _ _ _ _ _ _ h1 h3
  · rfl

/-- Witness for C3: line `commit <testHash>` with the `owner/repo` remote. -/
theorem c3_witness :
    commitLineMatch ("commit ".toList ++ testHash) = some (0, 6, 47)
    ∧ (format_commit_line_with_osc8_commit_hyperlink parseOwnerRepo
          ("commit ".toList ++ testHash) cfgGitHub
        = ("commit ".toList ++ testHash).take 7
            ++ format_osc8_hyperlink
                (format_github_commit_url ((("commit ".toList ++ testHash).drop 7).take 40)
                  ("owner/repo".toList))
                ((("commit ".toList ++ testHash).drop 7).take 40)
            ++ ("commit ".toList ++ testHash).drop 47
        ∧ format_github_commit_url ((("commit ".toList ++ testHash).drop 7).take 40)
            ("owner/repo".toList)
          = "https://github.com/".toList ++ "owner/repo".toList ++ "/commit/".toList
              ++ (("commit ".toList ++ testHash).drop 7).take 40) :=
  ⟨by decide, c3_github_fallback parseOwnerRepo cfgGitHub ("commit ".toList ++ testHash)
    ("owner/repo".toList) 0 6 47 rfl rfl (by decide)⟩

/-- C5: with no template configured, every failure of the remote resolution —
no git-metadata handle, no repository handle, erroring `origin` lookup,
remote without URL, URL that does not parse to the GitHub variant — makes
`format_commit_line_with_osc8_commit_hyperlink` return its input unchanged;
none of these paths can surface an error (the return type carries none). -/
theorem c5_silent_failure
    (from_str : List Char → Except Unit GitRemoteRepo) (cfg : Config) (line : List Char)
    (hT : cfg.hyperlinks_commit_link_format = none)
    (hfail : cfg.git_config = none
      ∨ ∃ gc, cfg.git_config = some gc ∧
        (gc.repo = none
         ∨ ∃ repo, gc.repo = some repo ∧
           (repo.find_remote ("origin".toList) = Except.error ()
            ∨ ∃ rem, repo.find_remote ("origin".toList) = Except.ok rem ∧
              (rem.url = none
               ∨ ∃ u, rem.url = some u ∧
                 (from_str u = Except.error ()
                  ∨ ∃ r, from_str u = Except.ok r ∧
                      ∀ str, r ≠ GitRemoteRepo.GitHubRepo str))))) :
    format_commit_line_with_osc8_commit_hyperlink from_str line cfg = line := by
  have hres : Option.bind cfg.git_config (get_remote_url from_str) = none
      ∨ Option.bind cfg.git_config (get_remote_url from_str)
          = some (GitConfigEntry.GitRemote GitRemoteRepo.OtherRepo) := by
    rcases hfail with h | ⟨gc, hgc, hcase⟩
    · left
      rw [h]
      rfl
    · rw [hgc]
      rcases hcase with h | ⟨repo, hrepo, hcase⟩
      · left
        simp only [Option.bind, get_remote_url, h]
      · rcases hcase with h | ⟨rem, hrem, hcase⟩
        · left
          simp only [Option.bind, get_remote_url, hrepo, h, Except.toOption]
        · rcases hcase with h | ⟨u, hu, hcase⟩
          · left
            simp only [Option.bind, get_remote_url, hrepo, hrem, Except.toOption, h]
          · rcases hcase with h | ⟨r, hr, hng⟩
            · left
              simp only [Option.bind, get_remote_url, hrepo, hrem, Except.toOption, hu, h,
                Option.map]
            · cases r with
              | GitHubRepo str => exact absurd rfl (hng str)
              | OtherRepo =>
                right
                simp only [Option.bind, get_remote_url, hrepo, hrem, Except.toOption, hu, hr,
                  Option.map]
  rw [format_commit_line_with_osc8_commit_hyperlink]
  simp only [hT]
  rcases hres with h | h <;> simp only [h]

/-- Witness for C5: neither a template nor git metadata; a line that does
match the commit pattern is still returned exactly unchanged. -/
theorem c5_witness :
    cfgEmpty.hyperlinks_commit_link_format = none
    ∧ format_commit_line_with_osc8_commit_hyperlink noParse
        ("commit ".toList ++ testHash) cfgEmpty = "commit ".toList ++ testHash :=
  ⟨rfl, c5_silent_failure noParse cfgEmpty ("commit ".toList ++ testHash) rfl (Or.inl rfl)⟩

set_option maxRecDepth 8192 in
/-- Counterexample to C2 as stated: the line `" <H1>x<H2>"` contains the two
distinct 40-hex tokens `aHash` and `bHash` in that order and Branch B
applies, yet the code wraps `aHash` (the only space-preceded token) and
leaves `bHash` literal, because the pattern requires a literal space
immediately before the hash group. -/
theorem c2_counterexample :
    format_commit_line_with_osc8_commit_hyperlink parseOwnerRepo
        (' ' :: (aHash ++ 'x' :: bHash)) cfgGitHub
      = ' ' :: (format_osc8_hyperlink (format_github_commit_url aHash ("owner/repo".toList))
          aHash ++ 'x' :: bHash)
    ∧ format_commit_line_with_osc8_commit_hyperlink parseOwnerRepo
        (' ' :: (aHash ++ 'x' :: bHash)) cfgGitHub
      ≠ ' ' :: (aHash ++ 'x' :: format_osc8_hyperlink
          (format_github_commit_url bHash ("owner/repo".toList)) bHash) :=
  ⟨by decide, by decide⟩

/-- C2 amended: under Branch B, for a line `p ++ " " ++ H2 ++ s` in which the
later 40-hex token `H2` is immediately preceded by a space and no candidate
(space followed by 40 hex characters) starts after position `p.length`, the
output is `p ++ " " ++ OSC8(url, H2) ++ s`: only `H2` is wrapped, and an
earlier 40-hex token `H1` occurring inside `p` remains literal, unwrapped
text.  (As stated the claim fails both when `H2` is not space-preceded — see
the counterexample — and under Branch A, which deletes the prefix containing
`H1`; see C1.) -/
theorem c2_amended_rightmost_space_preceded
    (from_str : List Char → Except Unit GitRemoteRepo) (cfg : Config)
    (repo p s H1 H2 : List Char)
    (hT : cfg.hyperlinks_commit_link_format = none)
    (hR : Option.bind cfg.git_config (get_remote_url from_str)
        = some (GitConfigEntry.GitRemote (GitRemoteRepo.GitHubRepo repo)))
    (_hH1 : isHex40 H1 = true) (hH2 : isHex40 H2 = true)
    (_hocc : H1 <:+: p)
    (hnl : noNewline (p ++ ' ' :: (H2 ++ s)) = true)
    (hmax : ∀ k, k < (p ++ ' ' :: (H2 ++ s)).length → p.length < k →
        candidateAt (p ++ ' ' :: (H2 ++ s)) k = false) :
    format_commit_line_with_osc8_commit_hyperlink from_str (p ++ ' ' :: (H2 ++ s)) cfg
      = p ++ ' ' :: (format_osc8_hyperlink (format_github_commit_url H2 repo) H2 ++ s) := by
  have hlen2 : H2.length = 40 := by
    rw [isHex40, Bool.and_eq_true] at hH2
    simpa using hH2.1
  have ht : (H2 ++ s).take 40 = H2 := by
    rw [List.take_append_eq_append_take, ← hlen2, List.take_length, Nat.sub_self,
      List.take_zero, List.append_nil]
  have hd : (H2 ++ s).drop 40 = s := by
    rw [List.drop_append_eq_append_drop, ← hlen2, List.drop_length, Nat.sub_self,
      List.drop_zero, List.nil_append]
  have hmax2 : ∀ k, p.length < k → candidateAt (p ++ ' ' :: (H2 ++ s)) k = false := by
    intro k hk
    rcases Nat.lt_or_ge k (p ++ ' ' :: (H2 ++ s)).length with hlt | hge
    · exact hmax k hlt hk
    · exact candidateAt_of_ge_length _ k hge
  have h := format_commit_line_branchB from_str cfg repo p (H2 ++ s) hT hR
    (by rw [ht]; exact hH2) hnl hmax2
  rw [ht, hd] at h
  exact h

set_option maxRecDepth 8192 in
/-- Witness for the amended C2: `p` is itself the earlier token `aHash`,
`H2 = bHash`; only `bHash` is wrapped and `aHash` stays literal. -/
theorem c2_witness :
    (∀ k, k < (aHash ++ ' ' :: (bHash ++ ([] : List Char))).length → aHash.length < k →
        candidateAt (aHash ++ ' ' :: (bHash ++ ([] : List Char))) k = false)
    ∧ format_commit_line_with_osc8_commit_hyperlink parseOwnerRepo
        (aHash ++ ' ' :: (bHash ++ ([] : List Char))) cfgGitHub
      = aHash ++ ' ' :: (format_osc8_hyperlink
          (format_github_commit_url bHash ("owner/repo".toList)) bHash ++ ([] : List Char)) :=
  ⟨by decide,
    c2_amended_rightmost_space_preceded parseOwnerRepo cfgGitHub ("owner/repo".toList)
      aHash [] aHash bHash rfl rfl (by decide) (by decide) ⟨[], [], by simp⟩
      (by decide) (by decide)⟩

set_option maxRecDepth 8192 in
/-- Counterexample to C10 as stated: for the Branch A configuration
(template `http://x/{commit}`) and the line `" "` followed by a run of 41
hex characters, the code does take the first 40 characters of the run as the
hash and uses them in the URL, but the remaining hex character is *not* left
in the output: the whole match is replaced by the hyperlink alone, so the
remainder (and the prefix) are deleted. -/
theorem c10_counterexample :
    format_commit_line_with_osc8_commit_hyperlink noParse
        (' ' :: (aHash ++ ['a'])) cfgTemplateX
      = format_osc8_hyperlink ("http://x/".toList ++ aHash) aHash
    ∧ format_commit_line_with_osc8_commit_hyperlink noParse
        (' ' :: (aHash ++ ['a'])) cfgTemplateX
      ≠ ' ' :: (format_osc8_hyperlink ("http://x/".toList ++ aHash) aHash ++ ['a']) :=
  ⟨by decide, by decide⟩

/-- C10 amended: under Branch B, for a line `p ++ " " ++ R ++ s` with `R` a
run of more than 40 lowercase-hex characters and no candidate starting after
position `p.length`, exactly the first 40 characters of the run are treated
as the commit hash — wrapped and used in the URL — and the remaining hex
characters stay in the suffix of the output; there is no right-hand
token-boundary check.  (As stated the claim also covers Branch A, where the
hash choice is the same but prefix and suffix are deleted from the output;
see the counterexample and C1.) -/
theorem c10_amended_first40
    (from_str : List Char → Except Unit GitRemoteRepo) (cfg : Config)
    (repo p s R : List Char)
    (hT : cfg.hyperlinks_commit_link_format = none)
    (hR : Option.bind cfg.git_config (get_remote_url from_str)
        = some (GitConfigEntry.GitRemote (GitRemoteRepo.GitHubRepo repo)))
    (hhex : R.all isCommitHexDigit = true) (hlen : 40 < R.length)
    (hnl : noNewline (p ++ ' ' :: (R ++ s)) = true)
    (hmax : ∀ k, k < (p ++ ' ' :: (R ++ s)).length → p.length < k →
        candidateAt (p ++ ' ' :: (R ++ s)) k = false) :
    format_commit_line_with_osc8_commit_hyperlink from_str (p ++ ' ' :: (R ++ s)) cfg
      = p ++ ' ' :: (format_osc8_hyperlink
          (format_github_commit_url (R.take 40) repo) (R.take 40)
          ++ (R.drop 40 ++ s)) := by
  have hsub : 40 - R.length = 0 := by omega
  have ht : (R ++ s).take 40 = R.take 40 := by
    rw [List.take_append_eq_append_take, hsub, List.take_zero, List.append_nil]
  have hd : (R ++ s).drop 40 = R.drop 40 ++ s := by
    rw [List.drop_append_eq_append_drop, hsub, List.drop_zero]
  have hhex40 : isHex40 ((R ++ s).take 40) = true := by
    rw [ht, isHex40, Bool.and_eq_true]
    constructor
    · have hlt : (R.take 40).length = 40 := by
        rw [List.length_take]
        exact Nat.min_eq_left (Nat.le_of_lt hlen)
      simp [hlt]
    · rw [List.all_eq_true] at hhex ⊢
      intro c hc
      exact hhex c (List.take_subset 40 R hc)
  have hmax2 : ∀ k, p.length < k → candidateAt (p ++ ' ' :: (R ++ s)) k = false := by
    intro k hk
    rcases Nat.lt_or_ge k (p ++ ' ' :: (R ++ s)).length with hlt | hge
    · exact hmax k hlt hk
    · exact candidateAt_of_ge_length _ k hge
  have h := format_commit_line_branchB from_str cfg repo p (R ++ s) hT hR hhex40 hnl hmax2
  rw [ht, hd] at h
  exact h

set_option maxRecDepth 8192 in
/-- Witness for the amended C10: a 41-character hex run after a space; the
first 40 characters are wrapped, the 41st stays in the suffix. -/
theorem c10_witness :
    ((aHash ++ ['a']).all isCommitHexDigit = true ∧ 40 < (aHash ++ ['a']).length)
    ∧ format_commit_line_with_osc8_commit_hyperlink parseOwnerRepo
        (([] : List Char) ++ ' ' :: ((aHash ++ ['a']) ++ ([] : List Char))) cfgGitHub
      = ([] : List Char) ++ ' ' :: (format_osc8_hyperlink
          (format_github_commit_url ((aHash ++ ['a']).take 40) ("owner/repo".toList))
          ((aHash ++ ['a']).take 40)
          ++ ((aHash ++ ['a']).drop 40 ++ ([] : List Char))) :=
  ⟨⟨by decide, by decide⟩,
    c10_amended_first40 parseOwnerRepo cfgGitHub ("owner/repo".toList)
      [] [] (aHash ++ ['a']) rfl rfl (by decide) (by decide) (by decide) (by decide)⟩

/-- C8: with working directory `/repo` and file-URL template
`file://{path}#{line}`, `format_osc8_file_hyperlink` on `a.txt` wraps the
display text in an OSC8 hyperlink whose URL is `file:///repo/a.txt#42` when
`line_number = some 42` (`{line}` replaced by the decimal form) and
`file:///repo/a.txt#` when `line_number = none` (`{line}` replaced by the
empty string), after `{path}` is replaced by the joined absolute path. -/
theorem c8_file_link_format (cfg : Config) (text : List Char)
    (hw : List.lookup ("delta.__workdir__".toList) cfg.git_config_entries
        = some (GitConfigEntry.Path ("/repo".toList)))
    (hf : cfg.hyperlinks_file_link_format = "file://{path}#{line}".toList) :
    format_osc8_file_hyperlink ("a.txt".toList) (some 42) text cfg
      = format_osc8_hyperlink ("file:///repo/a.txt#42".toList) text
    ∧ format_osc8_file_hyperlink ("a.txt".toList) none text cfg
      = format_osc8_hyperlink ("file:///repo/a.txt#".toList) text := by
  constructor <;>
  · rw [format_osc8_file_hyperlink]
    simp only [hw, hf]
    congr 1

/-- Witness for C8 at a concrete configuration and display text. -/
theorem c8_witness :
    List.lookup ("delta.__workdir__".toList) cfgWorkdir.git_config_entries
      = some (GitConfigEntry.Path ("/repo".toList))
    ∧ (format_osc8_file_hyperlink ("a.txt".toList) (some 42) ("shown".toList) cfgWorkdir
        = format_osc8_hyperlink ("file:///repo/a.txt#42".toList) ("shown".toList)
      ∧ format_osc8_file_hyperlink ("a.txt".toList) none ("shown".toList) cfgWorkdir
        = format_osc8_hyperlink ("file:///repo/a.txt#".toList) ("shown".toList)) :=
  ⟨by decide, c8_file_link_format cfgWorkdir ("shown".toList) (by decide) rfl⟩
